import Mathlib

/-!
Verification development for the analytics/aggregation core of the
goal-setting / reflection platform (`src/services/firebaseServiceReal.ts`).

Embedding conventions:

* JS `number` values are modeled as exact rationals (`ℚ`); integer-valued
  quantities (scores, counts) use `ℤ`/`ℕ`.
* A stored entry date is parsed by the code with `new Date(entry.date)` and
  then only used through `getTime()`; we model the parsed value directly as an
  epoch-millisecond integer `date : ℤ`.  `setHours(0,0,0,0)` truncates to the
  start of the calendar day, modeled as floor division by `dayLen = 86400000`
  (a UTC-like, DST-free calendar, which is the granularity the spec talks
  about).  `setDate(d - i)` subtracts `i * dayLen`.
* The admin dashboard path never parses dates; it applies the JS string
  method `includes` to the raw stored `date` field, so there the raw string is
  kept (`RawEntry`).
* `Math.round x` on the non-negative finite numbers arising here is
  `⌊x + 1/2⌋` (JS rounds halves towards +∞).
* JS `Array.prototype.sort` with a consistent comparator is a stable sort;
  it is modeled with a stable insertion sort.
* A JS `Map` keeps first-insertion key order and `set` replaces the value of
  an existing key in place; it is modeled as an association list (`mapSet`).
-/

/-- Milliseconds per calendar day. -/
def dayLen : ℤ := 86400000

/-- Calendar-day number of a timestamp (floor division; `Int.ediv` is floor
division for the positive divisor `dayLen`). -/
def dayNum (t : ℤ) : ℤ := Int.ediv t dayLen

/-- Timestamp of the start of the calendar day of `t`; models
`d.setHours(0,0,0,0)` applied to a `Date` holding `t`. -/
def dayStartTs (t : ℤ) : ℤ := dayNum t * dayLen

/-- JS `Math.round` on rationals: round half towards positive infinity. -/
def jsRound (q : ℚ) : ℤ := ⌊q + 1/2⌋

/-- `Math.round (q * 10) / 10` — rounding to one decimal, as the source does
for `averageDaily` and the trend percentages. -/
def roundTo1 (q : ℚ) : ℚ := (jsRound (q * 10) : ℚ) / 10

/-- `goal` field of a daily entry (`{ text, completed }`). -/
structure Goal where
  text : String
  completed : Bool
deriving DecidableEq

/-- `reflection` field of a daily entry (`{ text, depth }`). -/
structure Reflection where
  text : String
  depth : ℕ
deriving DecidableEq

/-- `quizEvaluation` field of a daily entry (`{ score, total }`). -/
structure QuizEvaluation where
  score : ℚ
  total : ℚ
deriving DecidableEq

/-- A daily record as consumed by the per-student analytics
(`DailyEntry` in `src/types`), with the date already parsed to a timestamp. -/
structure DailyEntry where
  date : ℤ
  goal : Option Goal
  reflection : Option Reflection
  quizEvaluation : Option QuizEvaluation
deriving DecidableEq

/-- Truthiness test used throughout the source:
`entry.goal || entry.reflection || entry.quizEvaluation`. -/
def isActive (e : DailyEntry) : Bool :=
  e.goal.isSome || e.reflection.isSome || e.quizEvaluation.isSome

/-- Insert into a list already sorted ascending by date, before the first
strictly later element (stable: ties keep input order, the new element coming
from earlier in the input goes first among equals only when inserted last;
see `sortAsc`). -/
def insertAsc (x : DailyEntry) : List DailyEntry → List DailyEntry
  | [] => [x]
  | y :: ys => if y.date < x.date then y :: insertAsc x ys else x :: y :: ys

/-- Stable sort ascending by date: models
`[...entries].sort((a, b) => a.date - b.date)` (comparator on `getTime()`). -/
def sortAsc : List DailyEntry → List DailyEntry
  | [] => []
  | x :: xs => insertAsc x (sortAsc xs)

/-- Insert into a list already sorted descending by date. -/
def insertDesc (x : DailyEntry) : List DailyEntry → List DailyEntry
  | [] => [x]
  | y :: ys => if x.date < y.date then y :: insertDesc x ys else x :: y :: ys

/-- Stable sort descending by date: models
`[...entries].sort((a, b) => b.date - a.date)`. -/
def sortDesc : List DailyEntry → List DailyEntry
  | [] => []
  | x :: xs => insertDesc x (sortDesc xs)

/-- The streak loop of `calculateConsistencyAndStreak` (source lines
114-133): walk the date-descending entry list; at index `i` the entry must
lie on the day exactly `i` days before today and must be active, otherwise
the walk stops. -/
def streakLoop (today : ℤ) : ℕ → List DailyEntry → ℕ
  | _, [] => 0
  | i, e :: rest =>
    if dayStartTs e.date = today - (i : ℤ) * dayLen then
      if isActive e then streakLoop today (i + 1) rest + 1 else 0
    else 0

/-- Result record of `calculateConsistencyAndStreak`. -/
structure ConsistencyStreak where
  consistencyScore : ℤ
  streak : ℕ
deriving DecidableEq

/-- `calculateConsistencyAndStreak` (source lines 91-136).  `now` is the
current clock reading (`new Date()`). -/
def calculateConsistencyAndStreak (now : ℤ) (entries : List DailyEntry) :
    ConsistencyStreak :=
  if entries = [] then { consistencyScore := 0, streak := 0 }
  else
    let sortedEntries := sortAsc entries
    let last30Days := sortedEntries.drop (sortedEntries.length - 30)
    let activeDays := (last30Days.filter isActive).length
    let consistencyScore :=
      jsRound (((activeDays : ℚ) / (min 30 entries.length : ℕ)) * 100)
    let today := dayStartTs now
    let recentEntries := sortDesc entries
    { consistencyScore := consistencyScore
      streak := streakLoop today 0 recentEntries }

/-- Modelled from the claim wording (C3), for refinement comparison with the
code's streak loop: walk backward from the current date; for offset
`i = 0, 1, 2, …` look up a record exactly `i` calendar days before today and
stop, without counting day `i`, at the first expected date that has no record
or whose record is not active.  Fuel (`entries.length` at the top level)
bounds the recursion. -/
def claimWalkAux (entries : List DailyEntry) (d : ℤ) : ℕ → ℕ → ℕ
  | 0, _ => 0
  | fuel + 1, i =>
    match entries.find? (fun e => decide (dayNum e.date = d - (i : ℤ))) with
    | none => 0
    | some e => if isActive e then claimWalkAux entries d fuel (i + 1) + 1 else 0

/-- Modelled from the claim wording (C3): the number of consecutive active
days found by walking backward from the current date. -/
def claimStreakWalk (now : ℤ) (entries : List DailyEntry) : ℕ :=
  claimWalkAux entries (dayNum now) entries.length 0

/-- One element of the per-day engagement sequence (`DailyEngagement` in
`src/types`).  The `dateString` label is modeled by the calendar-day
number (the `YYYY-MM-DD` label of the ISO string determines and is
determined by it). -/
structure DailyEngagement where
  date : ℤ
  engagementScore : ℤ
  activitiesCompleted : ℕ
  hasGoal : Bool
  hasReflection : Bool
  hasQuiz : Bool
deriving DecidableEq

/-- Result record of `calculateDailyEngagement`
(`DailyEngagementMetrics` in `src/types`). -/
structure DailyEngagementMetrics where
  dailyEngagement : List DailyEngagement
  averageDaily : ℚ
  activeDays : ℕ
  streakDays : ℕ
  weeklyTrend : ℚ
  monthlyTrend : ℚ
deriving DecidableEq

/-- Accumulator of the `dayEntries.forEach` loop of
`calculateDailyEngagement` (source lines 170-213). -/
structure DayAcc where
  engagementScore : ℤ
  activitiesCompleted : ℕ
  hasGoal : Bool
  hasReflection : Bool
  hasQuiz : Bool
deriving DecidableEq

/-- Body of the `dayEntries.forEach` loop (source lines 176-213): goal
+30 (+10 when completed), reflection +10×depth (+5 when depth ≥ 4), quiz
+round((score/total·100)·0.25) (+5 when score/total·100 ≥ 90). -/
def stepEntry (acc : DayAcc) (e : DailyEntry) : DayAcc :=
  let acc :=
    match e.goal with
    | some g =>
      { acc with
        hasGoal := true
        activitiesCompleted := acc.activitiesCompleted + 1
        engagementScore :=
          acc.engagementScore + 30 + (if g.completed then 10 else 0) }
    | none => acc
  let acc :=
    match e.reflection with
    | some r =>
      { acc with
        hasReflection := true
        activitiesCompleted := acc.activitiesCompleted + 1
        engagementScore :=
          acc.engagementScore + (r.depth : ℤ) * 10 +
            (if 4 ≤ r.depth then 5 else 0) }
    | none => acc
  match e.quizEvaluation with
  | some q =>
    let quizPerformance : ℚ := q.score / q.total * 100
    { acc with
      hasQuiz := true
      activitiesCompleted := acc.activitiesCompleted + 1
      engagementScore :=
        acc.engagementScore + jsRound (quizPerformance * (1/4)) +
          (if (90 : ℚ) ≤ quizPerformance then 5 else 0) }
  | none => acc

/-- Per-day engagement entry for calendar day `d` (the body of the
`last30Days.map` at source lines 162-226): fold the records matching day `d`
and cap the score at 100. -/
def dayEngagementFor (entries : List DailyEntry) (d : ℤ) : DailyEngagement :=
  let dayEntries := entries.filter (fun e => decide (dayNum e.date = d))
  let acc := dayEntries.foldl stepEntry ⟨0, 0, false, false, false⟩
  { date := d
    engagementScore := min 100 acc.engagementScore
    activitiesCompleted := acc.activitiesCompleted
    hasGoal := acc.hasGoal
    hasReflection := acc.hasReflection
    hasQuiz := acc.hasQuiz }

/-- The 30 per-day entries, oldest first and today last (the `last30Days`
loop at source lines 152-159 runs `i = 29 … 0` pushing `today - i` days). -/
def engagementDays (now : ℤ) (entries : List DailyEntry) :
    List DailyEngagement :=
  (List.range 30).map
    (fun (k : ℕ) => dayEngagementFor entries (dayNum now - 29 + (k : ℤ)))

/-- Aggregate metrics from the per-day list (source lines 229-263). -/
def metricsFromDays (days : List DailyEngagement) : DailyEngagementMetrics :=
  let totalEngagement : ℤ := (days.map (·.engagementScore)).sum
  let averageDaily : ℚ := (totalEngagement : ℚ) / 30
  let activeDays := (days.filter (fun d => decide (0 < d.engagementScore))).length
  let streakDays :=
    (days.reverse.takeWhile (fun d => decide (0 < d.engagementScore))).length
  let last7 := days.drop (days.length - 7)
  let previous7 := (days.drop (days.length - 14)).take 7
  let last7Average : ℚ := ((last7.map (·.engagementScore)).sum : ℤ) / 7
  let previous7Average : ℚ := ((previous7.map (·.engagementScore)).sum : ℤ) / 7
  let weeklyTrend : ℚ :=
    if 0 < previous7Average
    then (last7Average - previous7Average) / previous7Average * 100 else 0
  let last14 := days.drop (days.length - 14)
  let previous14 := (days.drop (days.length - 28)).take 14
  let last14Average : ℚ := ((last14.map (·.engagementScore)).sum : ℤ) / 14
  let previous14Average : ℚ :=
    ((previous14.map (·.engagementScore)).sum : ℤ) / 14
  let monthlyTrend : ℚ :=
    if 0 < previous14Average
    then (last14Average - previous14Average) / previous14Average * 100 else 0
  { dailyEngagement := days
    averageDaily := roundTo1 averageDaily
    activeDays := activeDays
    streakDays := streakDays
    weeklyTrend := roundTo1 weeklyTrend
    monthlyTrend := roundTo1 monthlyTrend }

/-- `calculateDailyEngagement` (source lines 139-264); on an empty record
list it returns the early all-zero record whose `dailyEngagement` is the
empty array (source lines 140-149). -/
def calculateDailyEngagement (now : ℤ) (entries : List DailyEntry) :
    DailyEngagementMetrics :=
  if entries = [] then
    { dailyEngagement := []
      averageDaily := 0
      activeDays := 0
      streakDays := 0
      weeklyTrend := 0
      monthlyTrend := 0 }
  else metricsFromDays (engagementDays now entries)

/-- Badge catalog entry (icon strings abbreviated; no computation reads
them). -/
structure Badge where
  id : String
  name : String
  description : String
  icon : String
deriving DecidableEq

/-- `ALL_BADGES` catalog entry `streak-7` (source line 45). -/
def streak7Badge : Badge :=
  ⟨"streak-7", "7-Day Streak",
    "Maintained a consistent streak for 7 days in a row!", "fire"⟩

/-- `ALL_BADGES` catalog entry `consistency-90` (source line 46). -/
def consistency90Badge : Badge :=
  ⟨"consistency-90", "High Achiever",
    "Achieved a consistency score of 90% or higher.", "trophy"⟩

/-- `ALL_BADGES` catalog entry `deep-thinker` (source line 47). -/
def deepThinkerBadge : Badge :=
  ⟨"deep-thinker", "Deep Thinker",
    "Consistently provided deep, thoughtful reflections (average depth of 4+).",
    "brain"⟩

/-- `ALL_BADGES` catalog entry `quiz-whiz` (source line 48). -/
def quizWhizBadge : Badge :=
  ⟨"quiz-whiz", "Quiz Whiz",
    "Mastered the daily quizzes with an average score of 90% or higher.",
    "target"⟩

/-- `ALL_BADGES` catalog entry `perfect-week` (source line 49). -/
def perfectWeekBadge : Badge :=
  ⟨"perfect-week", "Perfect Week",
    "Completed every goal for a full 7 days.", "star"⟩

/-- JS `Map.set`: replace the value of an existing key in place, else append
in insertion order (keys here are badge ids). -/
def mapSet (m : List Badge) (b : Badge) : List Badge :=
  if m.any (fun x => x.id == b.id) then
    m.map (fun x => if x.id == b.id then b else x)
  else m ++ [b]

/-- JS `Map.has` on the badge association list. -/
def mapHas (m : List Badge) (i : String) : Bool :=
  m.any (fun x => x.id == i)

/-- `new Map(student.badges.map(b => [b.id, b]))` (source line 56). -/
def badgeMapOf (badges : List Badge) : List Badge :=
  badges.foldl mapSet []

/-- The `StudentData` fields read and written by the modeled computations. -/
structure StudentData where
  studentId : String
  name : String
  consistencyScore : ℤ
  streak : ℕ
  badges : List Badge
  entries : List DailyEntry
deriving DecidableEq

/-- Average reflection depth over all of a student's reflections, used by the
deep-thinker check (source line 71). -/
def avgReflDepth (entries : List DailyEntry) : ℚ :=
  let reflections := entries.filterMap (·.reflection)
  (reflections.map (fun r => (r.depth : ℚ))).sum / reflections.length

/-- Average quiz percentage over all of a student's quizzes, used by the
quiz-whiz check (source line 80). -/
def avgQuizPct (entries : List DailyEntry) : ℚ :=
  let quizzes := entries.filterMap (·.quizEvaluation)
  (quizzes.map (fun q => q.score / q.total)).sum / quizzes.length * 100

/-- `checkAndAwardBadges` (source lines 55-88). -/
def checkAndAwardBadges (student : StudentData) : StudentData :=
  let m0 := badgeMapOf student.badges
  let m1 :=
    if 7 ≤ student.streak ∧ mapHas m0 "streak-7" = false
    then mapSet m0 streak7Badge else m0
  let m2 :=
    if 90 ≤ student.consistencyScore ∧ mapHas m1 "consistency-90" = false
    then mapSet m1 consistency90Badge else m1
  let reflections := student.entries.filterMap (·.reflection)
  let m3 :=
    if 2 < reflections.length ∧ (4 : ℚ) ≤ avgReflDepth student.entries ∧
        mapHas m2 "deep-thinker" = false
    then mapSet m2 deepThinkerBadge else m2
  let quizzes := student.entries.filterMap (·.quizEvaluation)
  let m4 :=
    if 0 < quizzes.length ∧ (90 : ℚ) ≤ avgQuizPct student.entries ∧
        mapHas m3 "quiz-whiz" = false
    then mapSet m3 quizWhizBadge else m3
  { student with badges := m4 }

/-- A daily record as consumed by the admin dashboard path, which never
parses the date: the raw stored string is kept. -/
structure RawEntry where
  date : String
  goal : Option Goal
  reflection : Option Reflection
  quizEvaluation : Option QuizEvaluation
deriving DecidableEq

/-- JS `String.prototype.includes`: substring test. -/
def strIncludes (s sub : String) : Bool :=
  decide (sub.data <:+: s.data)

/-- An element of the admin `atRiskStudents` output (`AtRiskStudent` in
`src/types`). -/
structure AtRiskStudent where
  id : String
  name : String
  reason : String
  missedGoals : ℕ
  avgReflectionDepth : ℚ
  avgTestScore : ℤ
deriving DecidableEq

/-- The entries the dashboard attributes to a student: those whose raw date
string contains the student id (`e.date.includes(student.studentId)`,
source lines 583 and 593). -/
def studentEntriesFor (allEntries : List RawEntry) (s : StudentData) :
    List RawEntry :=
  allEntries.filter (fun e => strIncludes e.date s.studentId)

/-- `!e.goal?.completed`: true when the goal is absent or not completed. -/
def notCompletedGoal (e : RawEntry) : Bool :=
  !((e.goal.map (·.completed)).getD false)

/-- `missedGoals` of the dashboard (source lines 584 and 594). -/
def missedGoalsOf (es : List RawEntry) : ℕ :=
  (es.filter notCompletedGoal).length

/-- `avgDepth` of the dashboard (source lines 586-588 and 598-600): average
reflection depth of the given entries, 0 when there are none. -/
def dashAvgDepth (es : List RawEntry) : ℚ :=
  let rs := es.filterMap (·.reflection)
  if 0 < rs.length then (rs.map (fun r => (r.depth : ℚ))).sum / rs.length else 0

/-- `avgScore` of the dashboard (source lines 602-604): average quiz
percentage of the given entries, 0 when there are none. -/
def dashAvgScore (es : List RawEntry) : ℚ :=
  let qs := es.filterMap (·.quizEvaluation)
  if 0 < qs.length
  then (qs.map (fun q => q.score / q.total)).sum / qs.length * 100 else 0

/-- The at-risk filter predicate (source line 590):
`missedGoals > 2 || avgDepth < 2 || student.consistencyScore < 60`. -/
def atRiskCond (allEntries : List RawEntry) (s : StudentData) : Bool :=
  let es := studentEntriesFor allEntries s
  decide (2 < missedGoalsOf es) || decide (dashAvgDepth es < 2) ||
    decide (s.consistencyScore < 60)

/-- The at-risk mapping step (source lines 592-619), including the reason
precedence: missed goals, then low reflection depth, then low consistency,
with `Multiple issues` as the fallback initial value. -/
def toAtRisk (allEntries : List RawEntry) (s : StudentData) : AtRiskStudent :=
  let es := studentEntriesFor allEntries s
  let missedGoals := missedGoalsOf es
  let avgDepth := dashAvgDepth es
  let avgScore := dashAvgScore es
  let reason :=
    if 2 < missedGoals then "Missed " ++ toString missedGoals ++ " goals"
    else if avgDepth < 2 then "Low reflection depth"
    else if s.consistencyScore < 60 then "Low consistency score"
    else "Multiple issues"
  { id := s.studentId
    name := s.name
    reason := reason
    missedGoals := missedGoals
    avgReflectionDepth := roundTo1 avgDepth
    avgTestScore := jsRound avgScore }

/-- The full `atRiskStudents` array (source lines 581-619): filter then map. -/
def atRiskAll (students : List StudentData) (allEntries : List RawEntry) :
    List AtRiskStudent :=
  (students.filter (atRiskCond allEntries)).map (toAtRisk allEntries)

/-- The at-risk list the dashboard publishes:
`atRiskStudents.slice(0, 5)` (source line 649). -/
def atRiskTop5 (students : List StudentData) (allEntries : List RawEntry) :
    List AtRiskStudent :=
  (atRiskAll students allEntries).take 5

/-- Calendar day of an entry (lemma-layer shorthand for `dayNum e.date`). -/
def entryDay (e : DailyEntry) : ℤ := dayNum e.date

/-- The per-entry score contribution of the `forEach` body of
`calculateDailyEngagement`, written as one closed term (the loop adds
exactly these amounts for one entry). -/
def entryContrib (e : DailyEntry) : ℤ :=
  (match e.goal with
   | some g => 30 + (if g.completed then 10 else 0)
   | none => 0) +
  (match e.reflection with
   | some r => (r.depth : ℤ) * 10 + (if 4 ≤ r.depth then 5 else 0)
   | none => 0) +
  (match e.quizEvaluation with
   | some q =>
     jsRound (q.score / q.total * 100 * (1/4)) +
       (if (90 : ℚ) ≤ q.score / q.total * 100 then 5 else 0)
   | none => 0)

/-- The per-entry `activitiesCompleted` contribution of the same loop. -/
def entryActs (e : DailyEntry) : ℕ :=
  (if e.goal.isSome then 1 else 0) + (if e.reflection.isSome then 1 else 0) +
    (if e.quizEvaluation.isSome then 1 else 0)

/-- Modelled from the claim wording (C5): per-day contribution of one
record, with the quiz part written as `round(25 · score/total)` and the
bonus condition as `score/total ≥ 0.90`. -/
def claimEntryScore (e : DailyEntry) : ℤ :=
  (match e.goal with
   | some g => 30 + (if g.completed then 10 else 0)
   | none => 0) +
  (match e.reflection with
   | some r => (r.depth : ℤ) * 10 + (if 4 ≤ r.depth then 5 else 0)
   | none => 0) +
  (match e.quizEvaluation with
   | some q =>
     jsRound (25 * (q.score / q.total)) +
       (if (9/10 : ℚ) ≤ q.score / q.total then 5 else 0)
   | none => 0)

/-- Modelled from the claim wording (C2): missed-goal count "counting only
goals present but not completed". -/
def claimMissedPresent (es : List RawEntry) : ℕ :=
  (es.filter (fun e => e.goal.elim false (fun g => !g.completed))).length

/-- Active-record count in the consistency window, as the code computes it
(filter of the last `min(30, length)` date-sorted records). -/
def activeInWindow (entries : List DailyEntry) : ℕ :=
  (((sortAsc entries).drop ((sortAsc entries).length - 30)).filter
    isActive).length

/-- An association list of badges has pairwise distinct ids. -/
def NodupIds (m : List Badge) : Prop := (m.map (·.id)).Nodup

lemma dayLen_pos : (0 : ℤ) < dayLen := by norm_num [dayLen]

lemma insertAsc_perm (x : DailyEntry) (l : List DailyEntry) :
    (insertAsc x l).Perm (x :: l) := by
  induction l with
  | nil => simp [insertAsc]
  | cons y ys ih =>
    by_cases h : y.date < x.date
    · simpa [insertAsc, h] using
        ((ih.cons y).trans (List.Perm.swap x y ys))
    · simp [insertAsc, h]

lemma sortAsc_perm (l : List DailyEntry) : (sortAsc l).Perm l := by
  induction l with
  | nil => simp [sortAsc]
  | cons x xs ih => exact (insertAsc_perm x (sortAsc xs)).trans (ih.cons x)

lemma insertDesc_perm (x : DailyEntry) (l : List DailyEntry) :
    (insertDesc x l).Perm (x :: l) := by
  induction l with
  | nil => simp [insertDesc]
  | cons y ys ih =>
    by_cases h : x.date < y.date
    · simpa [insertDesc, h] using
        ((ih.cons y).trans (List.Perm.swap x y ys))
    · simp [insertDesc, h]

lemma sortDesc_perm (l : List DailyEntry) : (sortDesc l).Perm l := by
  induction l with
  | nil => simp [sortDesc]
  | cons x xs ih => exact (insertDesc_perm x (sortDesc xs)).trans (ih.cons x)

lemma insertDesc_sorted (x : DailyEntry) (l : List DailyEntry)
    (h : l.Pairwise (fun a b => b.date ≤ a.date)) :
    (insertDesc x l).Pairwise (fun a b => b.date ≤ a.date) := by
  induction l with
  | nil => simp [insertDesc]
  | cons y ys ih =>
    rcases List.pairwise_cons.mp h with ⟨hy, hys⟩
    by_cases hxy : x.date < y.date
    · rw [insertDesc, if_pos hxy]
      refine List.pairwise_cons.mpr ⟨?_, ih hys⟩
      intro b hb
      rcases List.mem_cons.mp ((insertDesc_perm x ys).mem_iff.mp hb) with
        hb | hb
      · exact hb ▸ le_of_lt hxy
      · exact hy b hb
    · rw [insertDesc, if_neg hxy]
      refine List.pairwise_cons.mpr ⟨?_, h⟩
      intro b hb
      rcases List.mem_cons.mp hb with hb | hb
      · exact hb ▸ le_of_not_lt hxy
      · exact le_trans (hy b hb) (le_of_not_lt hxy)

lemma sortDesc_sorted (l : List DailyEntry) :
    (sortDesc l).Pairwise (fun a b => b.date ≤ a.date) := by
  induction l with
  | nil => simp [sortDesc]
  | cons x xs ih => exact insertDesc_sorted x (sortDesc xs) ih

lemma dayMatch_iff (t d : ℤ) (i : ℕ) :
    dayStartTs t = d * dayLen - (i : ℤ) * dayLen ↔ dayNum t = d - (i : ℤ) := by
  unfold dayStartTs
  constructor
  · intro h
    have h2 : dayNum t * dayLen = (d - (i : ℤ)) * dayLen := by
      rw [h]; ring
    exact mul_right_cancel₀ (ne_of_gt dayLen_pos) h2
  · intro h
    rw [h]; ring

/-- The code's streak loop over the date-descending record list agrees with
the claim's day-by-day backward walk, given that the remaining list holds
exactly the records on days `≤ d - i`, strictly descending by day. -/
lemma streakLoop_eq_claimWalk (entries : List DailyEntry) (d : ℤ)
    (hinj : ∀ x ∈ entries, ∀ y ∈ entries,
      dayNum x.date = dayNum y.date → x = y) :
    ∀ (fuel : ℕ) (i : ℕ) (r : List DailyEntry),
      r.Pairwise (fun a b => dayNum b.date < dayNum a.date) →
      (∀ x, x ∈ r ↔ x ∈ entries ∧ dayNum x.date ≤ d - (i : ℤ)) →
      r.length ≤ fuel →
      streakLoop (d * dayLen) i r = claimWalkAux entries d fuel i := by
  intro fuel
  induction fuel with
  | zero =>
    intro i r _ _ hlen
    rw [List.length_eq_zero.mp (Nat.le_zero.mp hlen)]
    rfl
  | succ fuel ih =>
    intro i r hsort hmem hlen
    cases r with
    | nil =>
      rw [streakLoop, claimWalkAux]
      have hnone :
          entries.find? (fun e => decide (dayNum e.date = d - (i : ℤ))) =
            none := by
        rw [List.find?_eq_none]
        intro e he hdec
        have hd : dayNum e.date = d - (i : ℤ) := of_decide_eq_true hdec
        exact absurd ((hmem e).mpr ⟨he, le_of_eq hd⟩) (List.not_mem_nil e)
      rw [hnone]
    | cons e rest =>
      have heR := (hmem e).mp (List.mem_cons_self e rest)
      rcases List.pairwise_cons.mp hsort with ⟨hhead, htail⟩
      by_cases hd : dayNum e.date = d - (i : ℤ)
      · have hfind :
            entries.find? (fun x => decide (dayNum x.date = d - (i : ℤ))) =
              some e := by
          cases hfe :
              entries.find? (fun x => decide (dayNum x.date = d - (i : ℤ)))
            with
          | none =>
            exact absurd (decide_eq_true hd)
              (List.find?_eq_none.mp hfe e heR.1)
          | some x =>
            have hb := List.find?_some hfe
            have hpx : dayNum x.date = d - (i : ℤ) := of_decide_eq_true hb
            have hx : x ∈ entries := List.mem_of_find?_eq_some hfe
            rw [hinj x hx e heR.1 (hpx.trans hd.symm)]
        have hstep : claimWalkAux entries d (fuel + 1) i =
            if isActive e = true then claimWalkAux entries d fuel (i + 1) + 1
            else 0 := by
          rw [claimWalkAux, hfind]
        rw [hstep, streakLoop, if_pos ((dayMatch_iff e.date d i).mpr hd)]
        cases hact : isActive e with
        | false => rfl
        | true =>
          rw [if_pos rfl, if_pos rfl]
          congr 1
          apply ih (i + 1)
          · exact htail
          · intro x
            constructor
            · intro hx
              have hx2 := (hmem x).mp (List.mem_cons_of_mem e hx)
              have hlt : dayNum x.date < dayNum e.date := hhead x hx
              refine ⟨hx2.1, ?_⟩
              push_cast
              omega
            · intro ⟨hx1, hx2⟩
              have hle : dayNum x.date ≤ d - (i : ℤ) := by
                push_cast at hx2; omega
              rcases List.mem_cons.mp ((hmem x).mpr ⟨hx1, hle⟩) with hx | hx
              · exfalso
                rw [hx] at hx2
                push_cast at hx2
                omega
              · exact hx
          · simp only [List.length_cons] at hlen
            omega
      · have hnone :
            entries.find? (fun x => decide (dayNum x.date = d - (i : ℤ))) =
              none := by
          rw [List.find?_eq_none]
          intro x hx hdec
          have hdx : dayNum x.date = d - (i : ℤ) := of_decide_eq_true hdec
          rcases List.mem_cons.mp ((hmem x).mpr ⟨hx, le_of_eq hdx⟩) with
            hx2 | hx2
          · exact hd (hx2 ▸ hdx)
          · have hlt : dayNum x.date < dayNum e.date := hhead x hx2
            omega
        rw [claimWalkAux, hnone, streakLoop,
          if_neg (fun hc => hd ((dayMatch_iff e.date d i).mp hc))]

lemma find?_day_eq_some (entries : List DailyEntry)
    (hinj : ∀ x ∈ entries, ∀ y ∈ entries,
      dayNum x.date = dayNum y.date → x = y)
    (e : DailyEntry) (he : e ∈ entries) (t : ℤ) (hd : dayNum e.date = t) :
    entries.find? (fun x => decide (dayNum x.date = t)) = some e := by
  cases hfe : entries.find? (fun x => decide (dayNum x.date = t)) with
  | none => exact absurd (decide_eq_true hd) (List.find?_eq_none.mp hfe e he)
  | some x =>
    have hb := List.find?_some hfe
    have hpx : dayNum x.date = t := of_decide_eq_true hb
    have hx : x ∈ entries := List.mem_of_find?_eq_some hfe
    rw [hinj x hx e he (hpx.trans hd.symm)]

/-- The computed streak equals the claim's backward day walk whenever no two
records share a calendar day and no record is dated after today. -/
lemma streak_eq_claimWalk (now : ℤ) (entries : List DailyEntry)
    (hdays : (entries.map (fun e => dayNum e.date)).Nodup)
    (hpast : ∀ e ∈ entries, dayNum e.date ≤ dayNum now) :
    (calculateConsistencyAndStreak now entries).streak =
      claimStreakWalk now entries := by
  by_cases hnil : entries = []
  · subst hnil; rfl
  · have hinj := List.inj_on_of_nodup_map hdays
    have hperm := sortDesc_perm entries
    have hnodupS :
        ((sortDesc entries).map (fun e => dayNum e.date)).Nodup :=
      ((hperm.map (fun e => dayNum e.date)).nodup_iff).mpr hdays
    have hsortedDay :
        (sortDesc entries).Pairwise
          (fun a b => dayNum b.date < dayNum a.date) := by
      have h1 := sortDesc_sorted entries
      have h2 : (sortDesc entries).Pairwise
          (fun a b => dayNum a.date ≠ dayNum b.date) :=
        List.pairwise_map.mp hnodupS
      exact (h1.and h2).imp (fun h =>
        lt_of_le_of_ne (Int.ediv_le_ediv dayLen_pos h.1) (Ne.symm h.2))
    have hmem0 : ∀ x, x ∈ sortDesc entries ↔
        x ∈ entries ∧ dayNum x.date ≤ dayNum now - ((0 : ℕ) : ℤ) := by
      intro x
      rw [hperm.mem_iff]
      simp only [Nat.cast_zero, sub_zero]
      exact ⟨fun h => ⟨h, hpast x h⟩, fun h => h.1⟩
    have hmain := streakLoop_eq_claimWalk entries (dayNum now) hinj
      entries.length 0 (sortDesc entries) hsortedDay hmem0
      (le_of_eq hperm.length_eq)
    simp only [calculateConsistencyAndStreak, if_neg hnil, claimStreakWalk]
    exact hmain

lemma claimWalkAux_none (entries : List DailyEntry) (d : ℤ) (fuel i : ℕ)
    (h : ∀ e ∈ entries, dayNum e.date ≠ d - (i : ℤ)) :
    claimWalkAux entries d fuel i = 0 := by
  cases fuel with
  | zero => rfl
  | succ fuel =>
    rw [claimWalkAux, List.find?_eq_none.mpr]
    intro x hx hdec
    exact h x hx (of_decide_eq_true hdec)

lemma claimWalkAux_found (entries : List DailyEntry) (d : ℤ) (fuel i : ℕ)
    (e : DailyEntry)
    (hfind : entries.find? (fun x => decide (dayNum x.date = d - (i : ℤ))) =
      some e) :
    claimWalkAux entries d (fuel + 1) i =
      if isActive e = true then claimWalkAux entries d fuel (i + 1) + 1
      else 0 := by
  rw [claimWalkAux, hfind]

/-- Three pairwise distinct members force length at least three. -/
lemma three_le_length {α : Type} {l : List α} {a b c : α}
    (ha : a ∈ l) (hb : b ∈ l) (hc : c ∈ l)
    (hab : a ≠ b) (hac : a ≠ c) (hbc : b ≠ c) : 3 ≤ l.length := by
  have hnd : ([a, b, c] : List α).Nodup := by simp [hab, hac, hbc]
  have hsub : ([a, b, c] : List α) ⊆ l := by
    intro x hx
    rcases List.mem_cons.mp hx with rfl | hx
    · exact ha
    rcases List.mem_cons.mp hx with rfl | hx
    · exact hb
    rcases List.mem_cons.mp hx with rfl | hx
    · exact hc
    · exact absurd hx (List.not_mem_nil x)
  simpa using (List.subperm_of_subset hnd hsub).length_le

/-- Claim C3 (amended): on record lists in which no two records share a
calendar day and no record is dated after today, the computed streak equals
the claim's backward day walk; consequently the streak is 0 when today has
no active record, and a list with active records on today, today−1 and
today−2 and no record on today−3 has streak 3 regardless of further older
records. -/
theorem claim3_streak_is_backward_walk (now : ℤ) (entries : List DailyEntry)
    (hdays : (entries.map (fun e => dayNum e.date)).Nodup)
    (hpast : ∀ e ∈ entries, dayNum e.date ≤ dayNum now) :
    (calculateConsistencyAndStreak now entries).streak =
        claimStreakWalk now entries ∧
      ((∀ e ∈ entries, dayNum e.date = dayNum now → isActive e = false) →
        (calculateConsistencyAndStreak now entries).streak = 0) ∧
      (∀ e0 e1 e2 : DailyEntry, e0 ∈ entries → e1 ∈ entries → e2 ∈ entries →
        dayNum e0.date = dayNum now → dayNum e1.date = dayNum now - 1 →
        dayNum e2.date = dayNum now - 2 →
        isActive e0 = true → isActive e1 = true → isActive e2 = true →
        (∀ e ∈ entries, dayNum e.date ≠ dayNum now - 3) →
        (calculateConsistencyAndStreak now entries).streak = 3) := by
  have hwalk := streak_eq_claimWalk now entries hdays hpast
  have hinj := List.inj_on_of_nodup_map hdays
  refine ⟨hwalk, ?_, ?_⟩
  · intro hinact
    rw [hwalk, claimStreakWalk]
    cases hl : entries.length with
    | zero => rfl
    | succ n =>
      cases hfe : entries.find?
          (fun x => decide (dayNum x.date = dayNum now - ((0 : ℕ) : ℤ))) with
      | none => rw [claimWalkAux, hfe]
      | some e =>
        have hb := List.find?_some hfe
        have hday : dayNum e.date = dayNum now := by
          have h2 : dayNum e.date = dayNum now - ((0 : ℕ) : ℤ) :=
            of_decide_eq_true hb
          push_cast at h2
          omega
        have hmem := List.mem_of_find?_eq_some hfe
        rw [claimWalkAux, hfe]
        show (if isActive e = true then
          claimWalkAux entries (dayNum now) n (0 + 1) + 1 else 0) = 0
        rw [hinact e hmem hday]
        rfl
  · intro e0 e1 e2 h0 h1 h2 hd0 hd1 hd2 ha0 ha1 ha2 hno
    have hne01 : e0 ≠ e1 := by
      intro h
      rw [h] at hd0
      omega
    have hne02 : e0 ≠ e2 := by
      intro h
      rw [h] at hd0
      omega
    have hne12 : e1 ≠ e2 := by
      intro h
      rw [h] at hd1
      omega
    have hlen3 : 3 ≤ entries.length :=
      three_le_length h0 h1 h2 hne01 hne02 hne12
    obtain ⟨k, hk⟩ : ∃ k, entries.length = k + 3 :=
      ⟨entries.length - 3, by omega⟩
    have hf0 := find?_day_eq_some entries hinj e0 h0
      (dayNum now - ((0 : ℕ) : ℤ)) (by push_cast; omega)
    have hf1 := find?_day_eq_some entries hinj e1 h1
      (dayNum now - ((1 : ℕ) : ℤ)) (by push_cast; omega)
    have hf2 := find?_day_eq_some entries hinj e2 h2
      (dayNum now - ((2 : ℕ) : ℤ)) (by push_cast; omega)
    have s3 : claimWalkAux entries (dayNum now) k 3 = 0 := by
      apply claimWalkAux_none
      intro e he
      have := hno e he
      push_cast
      omega
    have s2 : claimWalkAux entries (dayNum now) (k + 1) 2 =
        claimWalkAux entries (dayNum now) k 3 + 1 := by
      have h := claimWalkAux_found entries (dayNum now) k 2 e2 hf2
      rw [if_pos ha2] at h
      exact h
    have s1 : claimWalkAux entries (dayNum now) (k + 2) 1 =
        claimWalkAux entries (dayNum now) (k + 1) 2 + 1 := by
      have h := claimWalkAux_found entries (dayNum now) (k + 1) 1 e1 hf1
      rw [if_pos ha1] at h
      exact h
    have s0 : claimWalkAux entries (dayNum now) (k + 3) 0 =
        claimWalkAux entries (dayNum now) (k + 2) 1 + 1 := by
      have h := claimWalkAux_found entries (dayNum now) (k + 2) 0 e0 hf0
      rw [if_pos ha0] at h
      exact h
    rw [hwalk, claimStreakWalk, hk, s0, s1, s2, s3]

/-- Counterexample to claim C3 as stated: with two records on today's date
(and one active record yesterday) the code walks records, not days, so it
returns streak 1 while the claim's backward day walk returns 2. -/
theorem claim3_counterexample :
    (calculateConsistencyAndStreak 0
        [⟨0, some ⟨"g", true⟩, none, none⟩,
         ⟨0, some ⟨"h", true⟩, none, none⟩,
         ⟨-86400000, some ⟨"k", true⟩, none, none⟩]).streak = 1 ∧
      claimStreakWalk 0
        [⟨0, some ⟨"g", true⟩, none, none⟩,
         ⟨0, some ⟨"h", true⟩, none, none⟩,
         ⟨-86400000, some ⟨"k", true⟩, none, none⟩] = 2 := by
  constructor
  · decide
  · decide

/-- Witness: claim C3's theorem applied to a concrete three-day history. -/
theorem claim3_witness :
    (calculateConsistencyAndStreak (3 * 86400000 + 5)
        [⟨3 * 86400000, some ⟨"a", true⟩, none, none⟩,
         ⟨2 * 86400000 + 7, some ⟨"b", false⟩, none, none⟩,
         ⟨1 * 86400000, none, some ⟨"c", 4⟩, none⟩]).streak =
      claimStreakWalk (3 * 86400000 + 5)
        [⟨3 * 86400000, some ⟨"a", true⟩, none, none⟩,
         ⟨2 * 86400000 + 7, some ⟨"b", false⟩, none, none⟩,
         ⟨1 * 86400000, none, some ⟨"c", 4⟩, none⟩] :=
  (claim3_streak_is_backward_walk (3 * 86400000 + 5) _
    (by decide) (by decide)).1

lemma activeInWindow_le (entries : List DailyEntry) :
    activeInWindow entries ≤ min 30 entries.length := by
  have hlen := (sortAsc_perm entries).length_eq
  have h1 : activeInWindow entries ≤
      ((sortAsc entries).drop ((sortAsc entries).length - 30)).length :=
    List.length_filter_le _ _
  rw [List.length_drop] at h1
  omega

/-- Claim C4: the consistency score is 0 on the empty list, is
`round(100·activeCountInWindow/windowSize)` on a non-empty list with
`windowSize = min(30, totalRecordCount)`, and always lies in `[0, 100]`. -/
theorem claim4_consistency_score (now : ℤ) (entries : List DailyEntry) :
    0 ≤ (calculateConsistencyAndStreak now entries).consistencyScore ∧
      (calculateConsistencyAndStreak now entries).consistencyScore ≤ 100 ∧
      (entries = [] →
        (calculateConsistencyAndStreak now entries).consistencyScore = 0) ∧
      (entries ≠ [] →
        (calculateConsistencyAndStreak now entries).consistencyScore =
          jsRound (100 * (activeInWindow entries : ℚ) /
            ((min 30 entries.length : ℕ) : ℚ))) := by
  by_cases hnil : entries = []
  · subst hnil
    have h0 : (calculateConsistencyAndStreak now []).consistencyScore = 0 :=
      rfl
    rw [h0]
    refine ⟨le_refl 0, by norm_num, fun _ => rfl, fun h => absurd rfl h⟩
  · have hcs : (calculateConsistencyAndStreak now entries).consistencyScore =
        jsRound ((activeInWindow entries : ℚ) /
          ((min 30 entries.length : ℕ) : ℚ) * 100) := by
      simp only [calculateConsistencyAndStreak, if_neg hnil]
      rfl
    have hw1 : 1 ≤ min 30 entries.length := by
      have := List.length_pos.mpr hnil
      omega
    have ha := activeInWindow_le entries
    have hwq : (0 : ℚ) < ((min 30 entries.length : ℕ) : ℚ) := by
      exact_mod_cast hw1
    have haq : ((activeInWindow entries : ℕ) : ℚ) ≤
        ((min 30 entries.length : ℕ) : ℚ) := by exact_mod_cast ha
    have hq1 : ((activeInWindow entries : ℕ) : ℚ) /
        ((min 30 entries.length : ℕ) : ℚ) ≤ 1 :=
      (div_le_one hwq).mpr haq
    have hq0 : (0 : ℚ) ≤ ((activeInWindow entries : ℕ) : ℚ) /
        ((min 30 entries.length : ℕ) : ℚ) := by positivity
    refine ⟨?_, ?_, fun h => absurd h hnil, fun _ => ?_⟩
    · rw [hcs]
      refine Int.le_floor.mpr ?_
      have hc0 : (((0 : ℤ) : ℚ)) = 0 := by norm_num
      rw [hc0]
      linarith
    · rw [hcs]
      have hlt : ((activeInWindow entries : ℕ) : ℚ) /
            ((min 30 entries.length : ℕ) : ℚ) * 100 + 1/2 <
          ((101 : ℤ) : ℚ) := by
        have hc : (((101 : ℤ) : ℚ)) = 101 := by norm_num
        rw [hc]
        linarith
      have := Int.floor_lt.mpr hlt
      unfold jsRound
      omega
    · rw [hcs]
      congr 1
      ring

/-- Witness: claim C4's theorem applied to a concrete one-record history. -/
theorem claim4_witness :
    (calculateConsistencyAndStreak 0
        [⟨0, some ⟨"g", true⟩, none, none⟩]).consistencyScore ≤ 100 :=
  (claim4_consistency_score 0 [⟨0, some ⟨"g", true⟩, none, none⟩]).2.1

lemma stepEntry_spec (acc : DayAcc) (e : DailyEntry) :
    stepEntry acc e =
      ⟨acc.engagementScore + entryContrib e,
       acc.activitiesCompleted + entryActs e,
       acc.hasGoal || e.goal.isSome,
       acc.hasReflection || e.reflection.isSome,
       acc.hasQuiz || e.quizEvaluation.isSome⟩ := by
  rcases e with ⟨d, g, r, q⟩
  rcases acc with ⟨s, c, hg, hr, hq⟩
  cases g <;> cases r <;> cases q <;>
      simp [stepEntry, entryContrib, entryActs] <;>
    ring

lemma foldl_stepEntry (es : List DailyEntry) : ∀ acc : DayAcc,
    es.foldl stepEntry acc =
      ⟨acc.engagementScore + (es.map entryContrib).sum,
       acc.activitiesCompleted + (es.map entryActs).sum,
       acc.hasGoal || es.any (fun e => e.goal.isSome),
       acc.hasReflection || es.any (fun e => e.reflection.isSome),
       acc.hasQuiz || es.any (fun e => e.quizEvaluation.isSome)⟩ := by
  induction es with
  | nil => intro acc; simp
  | cons e es ih =>
    intro acc
    rw [List.foldl_cons, ih, stepEntry_spec]
    simp [add_assoc, Bool.or_assoc]

lemma dayEngagementFor_spec (entries : List DailyEntry) (d : ℤ) :
    dayEngagementFor entries d =
      { date := d
        engagementScore := min 100
          (((entries.filter (fun e => decide (dayNum e.date = d))).map
            entryContrib).sum)
        activitiesCompleted :=
          ((entries.filter (fun e => decide (dayNum e.date = d))).map
            entryActs).sum
        hasGoal := (entries.filter (fun e => decide (dayNum e.date = d))).any
          (fun e => e.goal.isSome)
        hasReflection :=
          (entries.filter (fun e => decide (dayNum e.date = d))).any
            (fun e => e.reflection.isSome)
        hasQuiz :=
          (entries.filter (fun e => decide (dayNum e.date = d))).any
            (fun e => e.quizEvaluation.isSome) } := by
  simp only [dayEngagementFor]
  rw [foldl_stepEntry]
  simp

lemma engagementDays_length (now : ℤ) (entries : List DailyEntry) :
    (engagementDays now entries).length = 30 := by
  unfold engagementDays
  rw [List.length_map, List.length_range]

lemma engagementDays_get? (now : ℤ) (entries : List DailyEntry) (i : ℕ)
    (h : i < 30) :
    (engagementDays now entries).get? i =
      some (dayEngagementFor entries (dayNum now - 29 + (i : ℤ))) := by
  unfold engagementDays
  rw [List.get?_map, List.get?_range h]
  rfl

lemma dailyEngagement_eq (now : ℤ) (entries : List DailyEntry)
    (h : entries ≠ []) :
    (calculateDailyEngagement now entries).dailyEngagement =
      engagementDays now entries := by
  simp only [calculateDailyEngagement, if_neg h]
  rfl

/-- Claim C1 (amended): on the empty record list the engagement computation
returns the early all-zero record whose `perDay` sequence is empty; on every
non-empty record list `perDay` has exactly 30 entries whose dates are the 30
consecutive calendar days ending today, in ascending order. -/
theorem claim1_engagement_shape (now : ℤ) (entries : List DailyEntry) :
    (entries = [] → calculateDailyEngagement now entries =
      { dailyEngagement := [], averageDaily := 0, activeDays := 0,
        streakDays := 0, weeklyTrend := 0, monthlyTrend := 0 }) ∧
      (entries ≠ [] →
        (calculateDailyEngagement now entries).dailyEngagement.length = 30 ∧
        ∀ i : ℕ, i < 30 →
          ((calculateDailyEngagement now entries).dailyEngagement.get? i).map
            (fun E => E.date) = some (dayNum now - 29 + (i : ℤ))) := by
  constructor
  · intro h
    subst h
    rfl
  · intro h
    rw [dailyEngagement_eq now entries h]
    refine ⟨engagementDays_length now entries, fun i hi => ?_⟩
    rw [engagementDays_get? now entries i hi]
    rfl

/-- Counterexample to claim C1 as stated: on the empty record list the code
returns an empty `perDay` array, not 30 zero-score days. -/
theorem claim1_counterexample :
    (calculateDailyEngagement 0 []).dailyEngagement.length = 0 ∧
      (calculateDailyEngagement 0 []).dailyEngagement.length ≠ 30 := by
  exact ⟨rfl, by decide⟩

/-- Witness: claim C1's theorem applied to a concrete one-record history. -/
theorem claim1_witness :
    (calculateDailyEngagement 0
      [⟨0, some ⟨"g", true⟩, none, none⟩]).dailyEngagement.length = 30 :=
  ((claim1_engagement_shape 0 [⟨0, some ⟨"g", true⟩, none, none⟩]).2
    (by simp)).1

lemma entryContrib_eq_claim (e : DailyEntry) :
    entryContrib e = claimEntryScore e := by
  rcases e with ⟨d, g, r, q⟩
  cases q with
  | none => rfl
  | some q =>
    unfold entryContrib claimEntryScore
    simp only
    congr 1
    have h1 : q.score / q.total * 100 * (1/4) = 25 * (q.score / q.total) := by
      ring
    rw [h1]
    congr 1
    exact if_congr (by constructor <;> intro h <;> linarith) rfl rfl

/-- Claim C5: each of the 30 per-day engagement scores equals the capped sum
over that day's records of the claim's per-record formula: goal +30 (+10 if
completed), reflection +10·depth (+5 if depth ≥ 4), quiz
+round(25·score/total) (+5 if score/total ≥ 0.90); records sharing the day
are folded before the 100 cap. -/
theorem claim5_day_score (now : ℤ) (entries : List DailyEntry)
    (h : entries ≠ []) (i : ℕ) (hi : i < 30) :
    ∃ E, (calculateDailyEngagement now entries).dailyEngagement.get? i =
        some E ∧
      E.engagementScore = min 100
        (((entries.filter
            (fun e => decide (dayNum e.date = dayNum now - 29 + (i : ℤ)))).map
          claimEntryScore).sum) := by
  refine ⟨dayEngagementFor entries (dayNum now - 29 + (i : ℤ)), ?_, ?_⟩
  · rw [dailyEngagement_eq now entries h, engagementDays_get? now entries i hi]
  · rw [dayEngagementFor_spec]
    simp only
    congr 2
    exact List.map_congr_left (fun e _ => entryContrib_eq_claim e)

/-- Witness: claim C5's theorem applied to a concrete full-activity day. -/
theorem claim5_witness :
    ∃ E, (calculateDailyEngagement 0
        [⟨0, some ⟨"g", true⟩, some ⟨"r", 4⟩,
          some ⟨9, 10⟩⟩]).dailyEngagement.get? 29 = some E ∧
      E.engagementScore = min 100
        ((([⟨0, some ⟨"g", true⟩, some ⟨"r", 4⟩, some ⟨9, 10⟩⟩] :
            List DailyEntry).filter
            (fun e => decide (dayNum e.date = dayNum 0 - 29 + (29 : ℤ)))).map
          claimEntryScore).sum :=
  claim5_day_score 0 [⟨0, some ⟨"g", true⟩, some ⟨"r", 4⟩, some ⟨9, 10⟩⟩]
    (by simp) 29 (by norm_num)

lemma perm_any {α : Type} {l l' : List α} (h : l.Perm l') (p : α → Bool) :
    l.any p = l'.any p := by
  cases ha : l.any p with
  | true =>
    rcases List.any_eq_true.mp ha with ⟨x, hx, hpx⟩
    exact (List.any_eq_true.mpr ⟨x, h.mem_iff.mp hx, hpx⟩).symm
  | false =>
    cases hb : l'.any p with
    | false => rfl
    | true =>
      rcases List.any_eq_true.mp hb with ⟨x, hx, hpx⟩
      have : l.any p = true := List.any_eq_true.mpr ⟨x, h.mem_iff.mpr hx, hpx⟩
      rw [ha] at this
      exact this.symm ▸ rfl

lemma dayEngagementFor_perm {l l' : List DailyEntry} (h : l.Perm l')
    (d : ℤ) : dayEngagementFor l d = dayEngagementFor l' d := by
  have hf : (l.filter (fun e => decide (dayNum e.date = d))).Perm
      (l'.filter (fun e => decide (dayNum e.date = d))) :=
    h.filter (fun e => decide (dayNum e.date = d))
  rw [dayEngagementFor_spec, dayEngagementFor_spec,
    (hf.map entryContrib).sum_eq, (hf.map entryActs).sum_eq,
    perm_any hf (fun e => e.goal.isSome),
    perm_any hf (fun e => e.reflection.isSome),
    perm_any hf (fun e => e.quizEvaluation.isSome)]

/-- Claim C8 (amended): the engagement-metrics computation is invariant
under permutation of the record list (and, being a pure function, each of
the computations is trivially deterministic on the identical list); the
consistency/streak computation is *not* permutation-invariant in general
because date ties are broken by input order. -/
theorem claim8_engagement_perm_invariant (now : ℤ)
    (l l' : List DailyEntry) (h : l.Perm l') :
    calculateDailyEngagement now l = calculateDailyEngagement now l' := by
  by_cases hnil : l = []
  · subst hnil
    rw [h.symm.eq_nil]
  · have hnil' : l' ≠ [] := by
      intro he
      exact hnil (List.length_eq_zero.mp (by rw [h.length_eq, he]; rfl))
    simp only [calculateDailyEngagement, if_neg hnil, if_neg hnil']
    congr 1
    unfold engagementDays
    exact List.map_congr_left (fun k _ => dayEngagementFor_perm h _)

/-- Counterexample to claim C8 as stated: the consistency/streak computation
is order-sensitive on date ties — swapping an active and an inactive record
with the same timestamp changes the streak from 1 to 0. -/
theorem claim8_counterexample :
    ([⟨0, some ⟨"g", false⟩, none, none⟩, ⟨0, none, none, none⟩] :
        List DailyEntry).Perm
      [⟨0, none, none, none⟩, ⟨0, some ⟨"g", false⟩, none, none⟩] ∧
      calculateConsistencyAndStreak 0
          [⟨0, some ⟨"g", false⟩, none, none⟩, ⟨0, none, none, none⟩] ≠
        calculateConsistencyAndStreak 0
          [⟨0, none, none, none⟩, ⟨0, some ⟨"g", false⟩, none, none⟩] := by
  constructor
  · exact List.Perm.swap (⟨0, none, none, none⟩ : DailyEntry)
      (⟨0, some ⟨"g", false⟩, none, none⟩ : DailyEntry) []
  · intro hEq
    have h1 : (calculateConsistencyAndStreak 0
        [⟨0, some ⟨"g", false⟩, none, none⟩,
         ⟨0, none, none, none⟩]).streak = 1 := by decide
    have h2 : (calculateConsistencyAndStreak 0
        [⟨0, none, none, none⟩,
         ⟨0, some ⟨"g", false⟩, none, none⟩]).streak = 0 := by decide
    rw [hEq, h2] at h1
    exact absurd h1 (by decide)

/-- Witness: claim C8's theorem applied to a concrete two-record swap. -/
theorem claim8_witness :
    calculateDailyEngagement 0
        [⟨0, some ⟨"g", false⟩, none, none⟩, ⟨0, none, none, none⟩] =
      calculateDailyEngagement 0
        [⟨0, none, none, none⟩, ⟨0, some ⟨"g", false⟩, none, none⟩] :=
  claim8_engagement_perm_invariant 0 _ _
    (List.Perm.swap (⟨0, none, none, none⟩ : DailyEntry)
      (⟨0, some ⟨"g", false⟩, none, none⟩ : DailyEntry) [])

lemma takeWhile_length_le {α : Type} (p : α → Bool) :
    ∀ (l : List α) (k : ℕ) (x : α), l.get? k = some x → p x = false →
      (l.takeWhile p).length ≤ k := by
  intro l
  induction l with
  | nil =>
    intro k x h
    simp at h
  | cons y ys ih =>
    intro k x hget hpx
    cases hpy : p y with
    | false => simp [List.takeWhile_cons, hpy]
    | true =>
      cases k with
      | zero =>
        have : y = x := by simpa using hget
        rw [this, hpx] at hpy
        exact absurd hpy (by simp)
      | succ k =>
        simp only [List.takeWhile_cons, hpy, if_true, List.length_cons]
        have := ih k x (by simpa using hget) hpx
        omega

lemma activeDays_eq (now : ℤ) (entries : List DailyEntry)
    (h : entries ≠ []) :
    (calculateDailyEngagement now entries).activeDays =
      ((engagementDays now entries).filter
        (fun d => decide (0 < d.engagementScore))).length := by
  simp only [calculateDailyEngagement, if_neg h]
  rfl

lemma streakDays_eq (now : ℤ) (entries : List DailyEntry)
    (h : entries ≠ []) :
    (calculateDailyEngagement now entries).streakDays =
      ((engagementDays now entries).reverse.takeWhile
        (fun d => decide (0 < d.engagementScore))).length := by
  simp only [calculateDailyEngagement, if_neg h]
  rfl


lemma entryContrib_zero_quiz (e : DailyEntry) (t : ℚ)
    (hg : e.goal = none) (hr : e.reflection = none)
    (hq : e.quizEvaluation = some ⟨0, t⟩) : entryContrib e = 0 := by
  unfold entryContrib
  rw [hg, hr, hq]
  norm_num [jsRound]

/-- Claim C9: a day inside the 30-day window whose only records are quizzes
with score 0 gets per-day engagement score 0 (round(25·0) and no bonus),
hence is excluded from the active-day count and cuts the engagement streak
there, even though its entry reports `hasQuiz = true`; yet each such record
counts as active for the consistency/streak computation. -/
theorem claim9_zero_score_quiz_day (now : ℤ) (entries : List DailyEntry)
    (i : ℕ) (hne : entries ≠ []) (hi : i < 30)
    (hex : ∃ e ∈ entries, dayNum e.date = dayNum now - 29 + (i : ℤ))
    (hall : ∀ e ∈ entries, dayNum e.date = dayNum now - 29 + (i : ℤ) →
      e.goal = none ∧ e.reflection = none ∧
        ∃ t, e.quizEvaluation = some ⟨0, t⟩) :
    ∃ E, (calculateDailyEngagement now entries).dailyEngagement.get? i =
        some E ∧
      E.engagementScore = 0 ∧ E.hasQuiz = true ∧
      (calculateDailyEngagement now entries).activeDays ≤ 29 ∧
      (calculateDailyEngagement now entries).streakDays ≤ 29 - i ∧
      ∀ e ∈ entries, dayNum e.date = dayNum now - 29 + (i : ℤ) →
        isActive e = true := by
  have hspec := dayEngagementFor_spec entries (dayNum now - 29 + (i : ℤ))
  have hscore : (dayEngagementFor entries
      (dayNum now - 29 + (i : ℤ))).engagementScore = 0 := by
    rw [hspec]
    have hzero : ∀ x ∈ ((entries.filter (fun e =>
        decide (dayNum e.date = dayNum now - 29 + (i : ℤ)))).map
          entryContrib), x = 0 := by
      intro x hx
      rcases List.mem_map.mp hx with ⟨e, he, rfl⟩
      rcases List.mem_filter.mp he with ⟨hmem, hday⟩
      rcases hall e hmem (of_decide_eq_true hday) with ⟨hg, hr, t, hq⟩
      exact entryContrib_zero_quiz e t hg hr hq
    show min 100 _ = 0
    rw [List.sum_eq_zero hzero]
    rfl
  refine ⟨dayEngagementFor entries (dayNum now - 29 + (i : ℤ)), ?_, hscore,
    ?_, ?_, ?_, ?_⟩
  · rw [dailyEngagement_eq now entries hne,
      engagementDays_get? now entries i hi]
  · rw [hspec]
    rcases hex with ⟨e, he, hday⟩
    rcases hall e he hday with ⟨hg, hr, t, hq⟩
    refine List.any_eq_true.mpr ⟨e, List.mem_filter.mpr
      ⟨he, decide_eq_true hday⟩, ?_⟩
    rw [hq]
    rfl
  · rw [activeDays_eq now entries hne]
    have hEmem : dayEngagementFor entries (dayNum now - 29 + (i : ℤ)) ∈
        engagementDays now entries :=
      List.get?_mem (engagementDays_get? now entries i hi)
    have hlt : ((engagementDays now entries).filter
        (fun d => decide (0 < d.engagementScore))).length <
        (engagementDays now entries).length :=
      List.length_filter_lt_length_iff_exists.mpr
        ⟨dayEngagementFor entries (dayNum now - 29 + (i : ℤ)), hEmem,
          by simp [hscore]⟩
    rw [engagementDays_length] at hlt
    omega
  · rw [streakDays_eq now entries hne]
    have hrev : (engagementDays now entries).reverse.get? (29 - i) =
        some (dayEngagementFor entries (dayNum now - 29 + (i : ℤ))) := by
      have hlen := engagementDays_length now entries
      have h1 : 29 - i < (engagementDays now entries).length := by omega
      rw [List.get?_reverse h1, hlen]
      have h2 : 30 - 1 - (29 - i) = i := by omega
      rw [h2]
      exact engagementDays_get? now entries i hi
    have := takeWhile_length_le (fun d => decide (0 < d.engagementScore))
      (engagementDays now entries).reverse (29 - i)
      (dayEngagementFor entries (dayNum now - 29 + (i : ℤ))) hrev
      (by simp [hscore])
    omega
  · intro e he hday
    rcases hall e he hday with ⟨hg, hr, t, hq⟩
    unfold isActive
    rw [hq]
    simp

/-- Witness: claim C9's theorem applied to a single score-0 quiz on today. -/
theorem claim9_witness :
    ∃ E, (calculateDailyEngagement 0
        [⟨0, none, none, some ⟨0, 5⟩⟩]).dailyEngagement.get? 29 = some E ∧
      E.engagementScore = 0 ∧ E.hasQuiz = true ∧
      (calculateDailyEngagement 0
        [⟨0, none, none, some ⟨0, 5⟩⟩]).activeDays ≤ 29 ∧
      (calculateDailyEngagement 0
        [⟨0, none, none, some ⟨0, 5⟩⟩]).streakDays ≤ 29 - 29 ∧
      ∀ e ∈ ([⟨0, none, none, some ⟨0, 5⟩⟩] : List DailyEntry),
        dayNum e.date = dayNum 0 - 29 + (29 : ℤ) → isActive e = true := by
  have h := claim9_zero_score_quiz_day 0 [⟨0, none, none, some ⟨0, 5⟩⟩] 29
    (by simp) (by norm_num)
    (⟨⟨0, none, none, some ⟨0, 5⟩⟩, by simp, by decide⟩)
    (by
      intro e he hd
      have he2 : e = ⟨0, none, none, some ⟨0, 5⟩⟩ := by simpa using he
      subst he2
      exact ⟨rfl, rfl, 5, rfl⟩)
  exact h

lemma any_id_map_replace (m : List Badge) (b : Badge) (i : String) :
    (m.map (fun x => if x.id == b.id then b else x)).any
        (fun x => x.id == i) =
      m.any (fun x => x.id == i) := by
  induction m with
  | nil => rfl
  | cons a m ih =>
    simp only [List.map_cons, List.any_cons, ih]
    congr 1
    by_cases h : (a.id == b.id) = true
    · rw [if_pos h]
      have h2 : a.id = b.id := by simpa using h
      rw [h2]
    · rw [if_neg h]

lemma mapHas_mapSet (m : List Badge) (b : Badge) (i : String) :
    mapHas (mapSet m b) i = (mapHas m i || (b.id == i)) := by
  unfold mapSet mapHas
  by_cases h : m.any (fun x => x.id == b.id)
  · rw [if_pos h, any_id_map_replace]
    by_cases hbi : (b.id == i) = true
    · rcases List.any_eq_true.mp h with ⟨y, hy, hyb⟩
      have h1 : (y.id == i) = true := by
        have h2 : y.id = b.id := by simpa using hyb
        have h3 : b.id = i := by simpa using hbi
        simp [h2, h3]
      have hm : m.any (fun x => x.id == i) = true :=
        List.any_eq_true.mpr ⟨y, hy, h1⟩
      rw [hm, hbi]
      rfl
    · have hbi' : (b.id == i) = false := by
        revert hbi
        cases (b.id == i) <;> simp
      rw [hbi', Bool.or_false]
  · rw [if_neg h, List.any_append]
    simp

lemma mapHas_foldl (l : List Badge) : ∀ (acc : List Badge) (i : String),
    mapHas (l.foldl mapSet acc) i =
      (mapHas acc i || l.any (fun x => x.id == i)) := by
  induction l with
  | nil =>
    intro acc i
    simp [mapHas]
  | cons b l ih =>
    intro acc i
    rw [List.foldl_cons, ih, mapHas_mapSet]
    simp [Bool.or_assoc]

lemma badgeMapOf_has (l : List Badge) (i : String) :
    mapHas (badgeMapOf l) i = mapHas l i := by
  unfold badgeMapOf
  rw [mapHas_foldl]
  simp [mapHas]

lemma mapHas_condSet (c : Prop) [Decidable c] (m : List Badge) (b : Badge)
    (i : String) :
    mapHas (if c then mapSet m b else m) i =
      (mapHas m i || (decide c && (b.id == i))) := by
  by_cases hc : c
  · rw [if_pos hc, mapHas_mapSet, decide_eq_true hc, Bool.true_and]
  · rw [if_neg hc, decide_eq_false hc, Bool.false_and, Bool.or_false]

lemma check_has_streak7 (s : StudentData) :
    mapHas (checkAndAwardBadges s).badges "streak-7" =
      (mapHas s.badges "streak-7" || decide (7 ≤ s.streak)) := by
  simp only [checkAndAwardBadges, mapHas_condSet, badgeMapOf_has,
    show (streak7Badge.id == "streak-7") = true from rfl,
    show (consistency90Badge.id == "streak-7") = false from rfl,
    show (deepThinkerBadge.id == "streak-7") = false from rfl,
    show (quizWhizBadge.id == "streak-7") = false from rfl,
    Bool.and_false, Bool.or_false, Bool.and_true]
  by_cases hs : mapHas s.badges "streak-7" = true
  · simp [hs]
  · have hs' : mapHas s.badges "streak-7" = false := by
      revert hs
      cases (mapHas s.badges "streak-7") <;> simp
    simp [hs']

lemma check_has_consistency90 (s : StudentData) :
    mapHas (checkAndAwardBadges s).badges "consistency-90" =
      (mapHas s.badges "consistency-90" ||
        decide (90 ≤ s.consistencyScore)) := by
  simp only [checkAndAwardBadges, mapHas_condSet, badgeMapOf_has,
    show (streak7Badge.id == "consistency-90") = false from rfl,
    show (consistency90Badge.id == "consistency-90") = true from rfl,
    show (deepThinkerBadge.id == "consistency-90") = false from rfl,
    show (quizWhizBadge.id == "consistency-90") = false from rfl,
    Bool.and_false, Bool.or_false, Bool.and_true]
  by_cases hs : mapHas s.badges "consistency-90" = true
  · simp [hs]
  · have hs' : mapHas s.badges "consistency-90" = false := by
      revert hs
      cases (mapHas s.badges "consistency-90") <;> simp
    simp [hs']

lemma check_has_deepthinker (s : StudentData) :
    mapHas (checkAndAwardBadges s).badges "deep-thinker" =
      (mapHas s.badges "deep-thinker" ||
        (decide (2 < (s.entries.filterMap (fun e => e.reflection)).length) &&
          decide ((4 : ℚ) ≤ avgReflDepth s.entries))) := by
  simp only [checkAndAwardBadges, mapHas_condSet, badgeMapOf_has,
    show (streak7Badge.id == "deep-thinker") = false from rfl,
    show (consistency90Badge.id == "deep-thinker") = false from rfl,
    show (deepThinkerBadge.id == "deep-thinker") = true from rfl,
    show (quizWhizBadge.id == "deep-thinker") = false from rfl,
    Bool.and_false, Bool.or_false, Bool.and_true]
  by_cases hs : mapHas s.badges "deep-thinker" = true
  · simp [hs]
  · have hs' : mapHas s.badges "deep-thinker" = false := by
      revert hs
      cases (mapHas s.badges "deep-thinker") <;> simp
    simp [hs']

lemma check_has_quizwhiz (s : StudentData) :
    mapHas (checkAndAwardBadges s).badges "quiz-whiz" =
      (mapHas s.badges "quiz-whiz" ||
        (decide (0 < (s.entries.filterMap (fun e => e.quizEvaluation)).length)
          && decide ((90 : ℚ) ≤ avgQuizPct s.entries))) := by
  simp only [checkAndAwardBadges, mapHas_condSet, badgeMapOf_has,
    show (streak7Badge.id == "quiz-whiz") = false from rfl,
    show (consistency90Badge.id == "quiz-whiz") = false from rfl,
    show (deepThinkerBadge.id == "quiz-whiz") = false from rfl,
    show (quizWhizBadge.id == "quiz-whiz") = true from rfl,
    Bool.and_false, Bool.or_false, Bool.and_true]
  by_cases hs : mapHas s.badges "quiz-whiz" = true
  · simp [hs]
  · have hs' : mapHas s.badges "quiz-whiz" = false := by
      revert hs
      cases (mapHas s.badges "quiz-whiz") <;> simp
    simp [hs']

lemma check_has_perfectweek (s : StudentData) :
    mapHas (checkAndAwardBadges s).badges "perfect-week" =
      mapHas s.badges "perfect-week" := by
  simp only [checkAndAwardBadges, mapHas_condSet, badgeMapOf_has,
    show (streak7Badge.id == "perfect-week") = false from rfl,
    show (consistency90Badge.id == "perfect-week") = false from rfl,
    show (deepThinkerBadge.id == "perfect-week") = false from rfl,
    show (quizWhizBadge.id == "perfect-week") = false from rfl,
    Bool.and_false, Bool.or_false]

/-- Claim C6: badge awarding grants exactly the catalog badges whose
conditions hold — streak-7 iff streak ≥ 7, consistency-90 iff score ≥ 90,
deep-thinker iff more than 2 reflections exist with average depth ≥ 4,
quiz-whiz iff at least one quiz exists with average percentage ≥ 90 — and
perfect-week is never newly awarded; concretely, reflection depths [4,4,5]
earn deep-thinker, [4,4] do not, and quiz ratios [0.95, 0.92] earn
quiz-whiz. -/
theorem claim6_badge_awarding :
    (∀ s : StudentData,
      (mapHas (checkAndAwardBadges s).badges "streak-7" = true ↔
        (7 ≤ s.streak ∨ mapHas s.badges "streak-7" = true)) ∧
      (mapHas (checkAndAwardBadges s).badges "consistency-90" = true ↔
        (90 ≤ s.consistencyScore ∨
          mapHas s.badges "consistency-90" = true)) ∧
      (mapHas (checkAndAwardBadges s).badges "deep-thinker" = true ↔
        ((2 < (s.entries.filterMap (fun e => e.reflection)).length ∧
            (4 : ℚ) ≤ avgReflDepth s.entries) ∨
          mapHas s.badges "deep-thinker" = true)) ∧
      (mapHas (checkAndAwardBadges s).badges "quiz-whiz" = true ↔
        ((0 < (s.entries.filterMap (fun e => e.quizEvaluation)).length ∧
            (90 : ℚ) ≤ avgQuizPct s.entries) ∨
          mapHas s.badges "quiz-whiz" = true)) ∧
      (mapHas (checkAndAwardBadges s).badges "perfect-week" = true ↔
        mapHas s.badges "perfect-week" = true)) ∧
    mapHas (checkAndAwardBadges ⟨"s", "S", 0, 0, [],
      [⟨0, none, some ⟨"a", 4⟩, none⟩, ⟨1, none, some ⟨"b", 4⟩, none⟩,
       ⟨2, none, some ⟨"c", 5⟩, none⟩]⟩).badges "deep-thinker" = true ∧
    mapHas (checkAndAwardBadges ⟨"s", "S", 0, 0, [],
      [⟨0, none, some ⟨"a", 4⟩, none⟩,
       ⟨1, none, some ⟨"b", 4⟩, none⟩]⟩).badges "deep-thinker" = false ∧
    mapHas (checkAndAwardBadges ⟨"s", "S", 0, 0, [],
      [⟨0, none, none, some ⟨19, 20⟩⟩,
       ⟨1, none, none, some ⟨23, 25⟩⟩]⟩).badges "quiz-whiz" = true := by
  refine ⟨fun s => ⟨?_, ?_, ?_, ?_, ?_⟩, ?_, ?_, ?_⟩
  · rw [check_has_streak7]
    simp [or_comm]
  · rw [check_has_consistency90]
    simp [or_comm]
  · rw [check_has_deepthinker]
    simp [or_comm]
  · rw [check_has_quizwhiz]
    simp [or_comm]
  · rw [check_has_perfectweek]
  · rw [check_has_deepthinker]
    have h1 : 2 < ((([⟨0, none, some ⟨"a", 4⟩, none⟩,
        ⟨1, none, some ⟨"b", 4⟩, none⟩, ⟨2, none, some ⟨"c", 5⟩, none⟩] :
          List DailyEntry)).filterMap (fun e => e.reflection)).length := by
      decide
    have h2 : (4 : ℚ) ≤ avgReflDepth
        [⟨0, none, some ⟨"a", 4⟩, none⟩, ⟨1, none, some ⟨"b", 4⟩, none⟩,
         ⟨2, none, some ⟨"c", 5⟩, none⟩] := by
      simp [avgReflDepth]
      norm_num
    simp [h1, h2, mapHas]
  · rw [check_has_deepthinker]
    simp [mapHas]
  · rw [check_has_quizwhiz]
    have h1 : 0 < ((([⟨0, none, none, some ⟨19, 20⟩⟩,
        ⟨1, none, none, some ⟨23, 25⟩⟩] :
          List DailyEntry)).filterMap (fun e => e.quizEvaluation)).length := by
      decide
    have h2 : (90 : ℚ) ≤ avgQuizPct
        [⟨0, none, none, some ⟨19, 20⟩⟩, ⟨1, none, none, some ⟨23, 25⟩⟩] := by
      simp [avgQuizPct]
      norm_num
    simp [h1, h2, mapHas]

lemma check_has_mono (s : StudentData) (i : String)
    (h : mapHas s.badges i = true) :
    mapHas (checkAndAwardBadges s).badges i = true := by
  simp only [checkAndAwardBadges, mapHas_condSet, badgeMapOf_has]
  simp [h]

lemma nodupIds_mapSet (m : List Badge) (b : Badge) (h : NodupIds m) :
    NodupIds (mapSet m b) := by
  unfold mapSet
  by_cases hc : m.any (fun x => x.id == b.id)
  · rw [if_pos hc]
    unfold NodupIds at h ⊢
    have hids : (m.map (fun x => if x.id == b.id then b else x)).map
        (fun x => x.id) = m.map (fun x => x.id) := by
      rw [List.map_map]
      apply List.map_congr_left
      intro a _
      show (if a.id == b.id then b else a).id = a.id
      by_cases hab : (a.id == b.id) = true
      · rw [if_pos hab]
        exact (by simpa using hab : a.id = b.id).symm
      · rw [if_neg hab]
    rw [hids]
    exact h
  · rw [if_neg hc]
    unfold NodupIds at h ⊢
    rw [List.map_append]
    have hnb : b.id ∉ m.map (fun x => x.id) := by
      intro hmem
      rcases List.mem_map.mp hmem with ⟨x, hx, hxid⟩
      exact hc (List.any_eq_true.mpr ⟨x, hx, by simp [hxid]⟩)
    rw [List.nodup_append]
    exact ⟨h, by simp, by
      intro a ha hb2
      simp only [List.map_cons, List.map_nil, List.mem_singleton] at hb2
      subst hb2
      exact hnb ha⟩

lemma nodupIds_ifSet (c : Prop) [Decidable c] (m : List Badge) (b : Badge)
    (h : NodupIds m) : NodupIds (if c then mapSet m b else m) := by
  by_cases hc : c
  · rw [if_pos hc]
    exact nodupIds_mapSet m b h
  · rw [if_neg hc]
    exact h

lemma nodupIds_foldl_mapSet (l : List Badge) : ∀ acc : List Badge,
    NodupIds acc → NodupIds (l.foldl mapSet acc) := by
  induction l with
  | nil => intro acc h; exact h
  | cons b l ih =>
    intro acc h
    rw [List.foldl_cons]
    exact ih (mapSet acc b) (nodupIds_mapSet acc b h)

lemma nodupIds_badgeMapOf (l : List Badge) : NodupIds (badgeMapOf l) :=
  nodupIds_foldl_mapSet l [] (by simp [NodupIds])

lemma nodupIds_check (s : StudentData) :
    NodupIds (checkAndAwardBadges s).badges := by
  apply nodupIds_ifSet
  apply nodupIds_ifSet
  apply nodupIds_ifSet
  apply nodupIds_ifSet
  exact nodupIds_badgeMapOf s.badges

lemma foldl_mapSet_of_nodup : ∀ (l acc : List Badge),
    NodupIds (acc ++ l) → l.foldl mapSet acc = acc ++ l := by
  intro l
  induction l with
  | nil =>
    intro acc _
    simp
  | cons b l ih =>
    intro acc h
    rw [List.foldl_cons]
    have hb : mapSet acc b = acc ++ [b] := by
      unfold mapSet
      rw [if_neg]
      intro hany
      rcases List.any_eq_true.mp hany with ⟨x, hx, hxb⟩
      unfold NodupIds at h
      rw [List.map_append] at h
      rcases List.nodup_append.mp h with ⟨_, _, hdis⟩
      exact hdis (List.mem_map.mpr ⟨x, hx, rfl⟩)
        (by simp [show x.id = b.id from by simpa using hxb])
    rw [hb]
    have h2 : NodupIds ((acc ++ [b]) ++ l) := by
      unfold NodupIds at h ⊢
      rw [List.append_assoc]
      simpa using h
    rw [ih (acc ++ [b]) h2, List.append_assoc]
    rfl

lemma badgeMapOf_of_nodup (m : List Badge) (h : NodupIds m) :
    badgeMapOf m = m := by
  unfold badgeMapOf
  have h2 := foldl_mapSet_of_nodup m [] (by simpa using h)
  simpa using h2

lemma check_eq_of_all_present (x : StudentData)
    (hnod : NodupIds x.badges)
    (h7 : 7 ≤ x.streak → mapHas x.badges "streak-7" = true)
    (h90 : 90 ≤ x.consistencyScore →
      mapHas x.badges "consistency-90" = true)
    (hdt : 2 < (x.entries.filterMap (fun e => e.reflection)).length →
      (4 : ℚ) ≤ avgReflDepth x.entries →
      mapHas x.badges "deep-thinker" = true)
    (hqw : 0 < (x.entries.filterMap (fun e => e.quizEvaluation)).length →
      (90 : ℚ) ≤ avgQuizPct x.entries →
      mapHas x.badges "quiz-whiz" = true) :
    checkAndAwardBadges x = x := by
  have hm0 := badgeMapOf_of_nodup x.badges hnod
  simp only [checkAndAwardBadges, hm0]
  have e1 : (if 7 ≤ x.streak ∧ mapHas x.badges "streak-7" = false
      then mapSet x.badges streak7Badge else x.badges) = x.badges := by
    rw [if_neg]
    rintro ⟨h, hf⟩
    rw [h7 h] at hf
    exact absurd hf (by simp)
  rw [e1]
  have e2 : (if 90 ≤ x.consistencyScore ∧
        mapHas x.badges "consistency-90" = false
      then mapSet x.badges consistency90Badge else x.badges) = x.badges := by
    rw [if_neg]
    rintro ⟨h, hf⟩
    rw [h90 h] at hf
    exact absurd hf (by simp)
  rw [e2]
  have e3 : (if 2 < (x.entries.filterMap (fun e => e.reflection)).length ∧
        (4 : ℚ) ≤ avgReflDepth x.entries ∧
        mapHas x.badges "deep-thinker" = false
      then mapSet x.badges deepThinkerBadge else x.badges) = x.badges := by
    rw [if_neg]
    rintro ⟨ha, hb, hf⟩
    rw [hdt ha hb] at hf
    exact absurd hf (by simp)
  rw [e3]
  have e4 : (if
        0 < (x.entries.filterMap (fun e => e.quizEvaluation)).length ∧
        (90 : ℚ) ≤ avgQuizPct x.entries ∧
        mapHas x.badges "quiz-whiz" = false
      then mapSet x.badges quizWhizBadge else x.badges) = x.badges := by
    rw [if_neg]
    rintro ⟨ha, hb, hf⟩
    rw [hqw ha hb] at hf
    exact absurd hf (by simp)
  rw [e4]

/-- Claim C7: badge awarding is monotonic (every badge id present before is
present after, with no revocation) and idempotent (running the computation
twice equals running it once). -/
theorem claim7_badges_monotone_idempotent (s : StudentData) :
    (∀ i : String, mapHas s.badges i = true →
      mapHas (checkAndAwardBadges s).badges i = true) ∧
    checkAndAwardBadges (checkAndAwardBadges s) = checkAndAwardBadges s := by
  refine ⟨fun i h => check_has_mono s i h, ?_⟩
  apply check_eq_of_all_present (checkAndAwardBadges s) (nodupIds_check s)
  · intro h
    rw [check_has_streak7]
    have h2 : 7 ≤ s.streak := h
    simp [h2]
  · intro h
    rw [check_has_consistency90]
    have h2 : 90 ≤ s.consistencyScore := h
    simp [h2]
  · intro h1 h2
    rw [check_has_deepthinker]
    have h1' : 2 < (s.entries.filterMap (fun e => e.reflection)).length := h1
    have h2' : (4 : ℚ) ≤ avgReflDepth s.entries := h2
    simp [h1', h2']
  · intro h1 h2
    rw [check_has_quizwhiz]
    have h1' : 0 < (s.entries.filterMap (fun e => e.quizEvaluation)).length :=
      h1
    have h2' : (90 : ℚ) ≤ avgQuizPct s.entries := h2
    simp [h1', h2']

/-- Witness: claim C7's theorem applied to a student already holding the
perfect-week badge with streak 0 (the trigger no longer holds, the badge
stays). -/
theorem claim7_witness :
    mapHas (checkAndAwardBadges ⟨"s", "S", 0, 0,
      [⟨"perfect-week", "Perfect Week",
        "Completed every goal for a full 7 days.", "star"⟩],
      []⟩).badges "perfect-week" = true :=
  (claim7_badges_monotone_idempotent ⟨"s", "S", 0, 0,
      [⟨"perfect-week", "Perfect Week",
        "Completed every goal for a full 7 days.", "star"⟩], []⟩).1
    "perfect-week" (by decide)

lemma missed_str_ne (s : String) : ("Missed " ++ s) ≠ "Multiple issues" := by
  intro h
  have h2 : ("Missed " ++ s).data = ("Multiple issues").data := by rw [h]
  rw [String.data_append] at h2
  have h3 : ("Missed ").data = ['M', 'i', 's', 's', 'e', 'd', ' '] := rfl
  have h4 : ("Multiple issues").data =
      ['M', 'u', 'l', 't', 'i', 'p', 'l', 'e', ' ', 'i', 's', 's', 'u', 'e',
       's'] := rfl
  rw [h3, h4] at h2
  simp at h2

/-- Claim C10: every emitted at-risk entry carries one of the three specific
reasons; the fallback label `Multiple issues` is unreachable because the
at-risk filter guarantees one of the three conditions. -/
theorem claim10_no_multiple_issues (students : List StudentData)
    (allEntries : List RawEntry) (r : AtRiskStudent)
    (hr : r ∈ atRiskTop5 students allEntries) :
    r.reason ≠ "Multiple issues" := by
  have hr2 : r ∈ atRiskAll students allEntries := List.mem_of_mem_take hr
  rcases List.mem_map.mp hr2 with ⟨s, hs, rfl⟩
  rcases List.mem_filter.mp hs with ⟨_, hcond⟩
  unfold atRiskCond at hcond
  simp only [Bool.or_eq_true, decide_eq_true_eq] at hcond
  show (if 2 < missedGoalsOf (studentEntriesFor allEntries s) then
      "Missed " ++ toString (missedGoalsOf (studentEntriesFor allEntries s))
        ++ " goals"
    else if dashAvgDepth (studentEntriesFor allEntries s) < 2 then
      "Low reflection depth"
    else if s.consistencyScore < 60 then "Low consistency score"
    else "Multiple issues") ≠ "Multiple issues"
  by_cases h1 : 2 < missedGoalsOf (studentEntriesFor allEntries s)
  · rw [if_pos h1]
    exact missed_str_ne _
  · rw [if_neg h1]
    by_cases h2 : dashAvgDepth (studentEntriesFor allEntries s) < 2
    · rw [if_pos h2]
      decide
    · rw [if_neg h2]
      by_cases h3 : s.consistencyScore < 60
      · rw [if_pos h3]
        decide
      · exact hcond.elim
          (fun hab => hab.elim (fun h => absurd h h1)
            (fun h => absurd h h2))
          (fun h => absurd h h3)

/-- Witness: claim C10's theorem applied to a student flagged for three
goal-less entries. -/
theorem claim10_witness :
    (toAtRisk [⟨"s", none, none, none⟩, ⟨"s", none, none, none⟩,
        ⟨"s", none, none, none⟩] ⟨"s", "S", 0, 0, [], []⟩).reason ≠
      "Multiple issues" :=
  claim10_no_multiple_issues [⟨"s", "S", 0, 0, [], []⟩]
    [⟨"s", none, none, none⟩, ⟨"s", none, none, none⟩,
     ⟨"s", none, none, none⟩] _
    (List.mem_cons_self _ _)

/-- Claim C2 (amended): a student is classified at-risk iff, over the
entries whose raw date string contains the student id, the count of entries
lacking a completed goal (goal absent or present-but-uncompleted) exceeds 2,
or the average reflection depth (0 when no reflections) is below 2, or the
consistencyScore is below 60; reasons follow the precedence missed goals,
then low reflection depth, then low consistency; and the published list is
the first 5 of the filter-then-map pipeline, in filter order with no sort. -/
theorem claim2_at_risk_classification (students : List StudentData)
    (allEntries : List RawEntry) :
    (∀ s : StudentData, atRiskCond allEntries s = true ↔
      (2 < missedGoalsOf (studentEntriesFor allEntries s) ∨
        dashAvgDepth (studentEntriesFor allEntries s) < 2 ∨
        s.consistencyScore < 60)) ∧
      atRiskTop5 students allEntries =
        ((students.filter (atRiskCond allEntries)).map
          (toAtRisk allEntries)).take 5 ∧
      (atRiskTop5 students allEntries).length ≤ 5 ∧
      (∀ s : StudentData,
        (2 < missedGoalsOf (studentEntriesFor allEntries s) →
          (toAtRisk allEntries s).reason = "Missed " ++
            toString (missedGoalsOf (studentEntriesFor allEntries s)) ++
              " goals") ∧
        (¬ 2 < missedGoalsOf (studentEntriesFor allEntries s) →
          dashAvgDepth (studentEntriesFor allEntries s) < 2 →
          (toAtRisk allEntries s).reason = "Low reflection depth") ∧
        (¬ 2 < missedGoalsOf (studentEntriesFor allEntries s) →
          ¬ dashAvgDepth (studentEntriesFor allEntries s) < 2 →
          s.consistencyScore < 60 →
          (toAtRisk allEntries s).reason = "Low consistency score")) := by
  refine ⟨?_, rfl, ?_, ?_⟩
  · intro s
    unfold atRiskCond
    simp [or_assoc]
  · unfold atRiskTop5
    rw [List.length_take]
    exact min_le_left _ _
  · intro s
    refine ⟨?_, ?_, ?_⟩
    · intro h1
      show (if 2 < missedGoalsOf (studentEntriesFor allEntries s) then
          "Missed " ++
            toString (missedGoalsOf (studentEntriesFor allEntries s)) ++
            " goals"
        else if dashAvgDepth (studentEntriesFor allEntries s) < 2 then
          "Low reflection depth"
        else if s.consistencyScore < 60 then "Low consistency score"
        else "Multiple issues") = _
      rw [if_pos h1]
    · intro h1 h2
      show (if 2 < missedGoalsOf (studentEntriesFor allEntries s) then
          "Missed " ++
            toString (missedGoalsOf (studentEntriesFor allEntries s)) ++
            " goals"
        else if dashAvgDepth (studentEntriesFor allEntries s) < 2 then
          "Low reflection depth"
        else if s.consistencyScore < 60 then "Low consistency score"
        else "Multiple issues") = _
      rw [if_neg h1, if_pos h2]
    · intro h1 h2 h3
      show (if 2 < missedGoalsOf (studentEntriesFor allEntries s) then
          "Missed " ++
            toString (missedGoalsOf (studentEntriesFor allEntries s)) ++
            " goals"
        else if dashAvgDepth (studentEntriesFor allEntries s) < 2 then
          "Low reflection depth"
        else if s.consistencyScore < 60 then "Low consistency score"
        else "Multiple issues") = _
      rw [if_neg h1, if_neg h2, if_pos h3]

/-- Counterexample to claim C2 as stated: the code's missed-goal count uses
`!e.goal?.completed`, which also counts entries with no goal at all — a
student with three goal-less, depth-5-reflection entries and consistency 100
is flagged at-risk although none of the claim's three conditions (missed
count over goals present, low depth, low consistency) holds. -/
theorem claim2_counterexample :
    (atRiskTop5 [⟨"s1", "Stu", 100, 0, [], []⟩]
        [⟨"s1-a", none, some ⟨"r", 5⟩, none⟩,
         ⟨"s1-b", none, some ⟨"r", 5⟩, none⟩,
         ⟨"s1-c", none, some ⟨"r", 5⟩, none⟩]).length = 1 ∧
      claimMissedPresent (studentEntriesFor
        [⟨"s1-a", none, some ⟨"r", 5⟩, none⟩,
         ⟨"s1-b", none, some ⟨"r", 5⟩, none⟩,
         ⟨"s1-c", none, some ⟨"r", 5⟩, none⟩]
        ⟨"s1", "Stu", 100, 0, [], []⟩) = 0 ∧
      ¬ dashAvgDepth (studentEntriesFor
        [⟨"s1-a", none, some ⟨"r", 5⟩, none⟩,
         ⟨"s1-b", none, some ⟨"r", 5⟩, none⟩,
         ⟨"s1-c", none, some ⟨"r", 5⟩, none⟩]
        ⟨"s1", "Stu", 100, 0, [], []⟩) < 2 ∧
      ¬ ((⟨"s1", "Stu", 100, 0, [], []⟩ : StudentData).consistencyScore <
        60) := by
  refine ⟨by decide, by decide, ?_, by decide⟩
  have he : studentEntriesFor
      [⟨"s1-a", none, some ⟨"r", 5⟩, none⟩,
       ⟨"s1-b", none, some ⟨"r", 5⟩, none⟩,
       ⟨"s1-c", none, some ⟨"r", 5⟩, none⟩]
      ⟨"s1", "Stu", 100, 0, [], []⟩ =
      [⟨"s1-a", none, some ⟨"r", 5⟩, none⟩,
       ⟨"s1-b", none, some ⟨"r", 5⟩, none⟩,
       ⟨"s1-c", none, some ⟨"r", 5⟩, none⟩] := by decide
  rw [he]
  simp [dashAvgDepth]
  norm_num

/-- Witness: claim C2's theorem applied to the empty dashboard. -/
theorem claim2_witness : (atRiskTop5 [] []).length ≤ 5 :=
  (claim2_at_risk_classification [] []).2.2.1
